import Mathlib

/-!
Verification of the `life_expectancy` cleaning pipeline.

This file is a shallow embedding of the pipeline implemented in
`life_expectancy/cleaning.py` and `life_expectancy/data_loaders.py`:

* a wide (Eurostat TSV) table is modelled as a column-name list plus rows of
  string cells (`WideDF`);
* `split_metadata_columns`, `melt_years`, `clean_types`, `filter_country` and
  `clean_data` mirror the pandas code operating on those tables;
* Python string primitives used by the code (`str.strip`, `str.split`,
  regex removal of non-digit non-period characters, `int(...)` and
  `pandas.to_numeric`) are modelled character-by-character;
* floating-point values are modelled as exact rationals: every value the
  pipeline produces comes from parsing a finite decimal literal.

All definitions are executable, so concrete runs of the pipeline can be
checked by `decide`.
-/

set_option maxRecDepth 4000
set_option exponentiation.threshold 1100

namespace LifeExp

/-- Decidable equality for `Except`, so that concrete loader outcomes can
be checked by `decide`. -/
instance {ε α : Type} [DecidableEq ε] [DecidableEq α] : DecidableEq (Except ε α) := fun x y =>
  match x, y with
  | .ok a, .ok b => decidable_of_iff (a = b) (by simp)
  | .error e, .error f => decidable_of_iff (e = f) (by simp)
  | .ok _, .error _ => isFalse (by simp)
  | .error _, .ok _ => isFalse (by simp)

/-! ### Python string primitives, modelled on lists of characters -/

/-- Python `str.split(sep)` for a single-character separator: splits a
character list at every occurrence of `sep`; the empty string splits into
one empty chunk. -/
def splitOnChar (sep : Char) : List Char → List (List Char)
  | [] => [[]]
  | c :: cs =>
    match splitOnChar sep cs with
    | [] => [[]]
    | h :: t => if c == sep then [] :: h :: t else (c :: h) :: t

/-- Python `str.strip()`: remove leading and trailing whitespace characters. -/
def stripChars (cs : List Char) : List Char :=
  ((cs.dropWhile Char.isWhitespace).reverse.dropWhile Char.isWhitespace).reverse

/-- String-level wrapper of `stripChars`. -/
def pyStrip (s : String) : String :=
  String.mk (stripChars s.toList)

/-- Python `str.lower()` restricted to ASCII letters, as used on file
suffixes. -/
def lowerString (s : String) : String :=
  String.mk (s.toList.map Char.toLower)

/-- Python `s.split(",")` returning strings. -/
def splitComma (s : String) : List String :=
  (splitOnChar ',' s.toList).map String.mk

/-! ### Numeric parsing -/

/-- Value of a list of ASCII digits, most significant first. -/
def digitsVal (cs : List Char) : Nat :=
  cs.foldl (fun a c => a * 10 + (c.toNat - 48)) 0

/-- Model of `astype(int)` applied to a string cell: Python `int(s)` on an
already-stripped string, i.e. an optional sign followed by at least one
ASCII digit. -/
def parseIntStrict (s : String) : Option Int :=
  match s.toList with
  | '-' :: rest =>
    if rest ≠ [] ∧ rest.all Char.isDigit then some (-(digitsVal rest : Int)) else none
  | '+' :: rest =>
    if rest ≠ [] ∧ rest.all Char.isDigit then some (digitsVal rest : Int) else none
  | cs =>
    if cs ≠ [] ∧ cs.all Char.isDigit then some (digitsVal cs : Int) else none

/-- Year conversion for a string-typed year column: strip the cell, then
convert it the way astype-int does. -/
def parseYear (s : String) : Option Int :=
  parseIntStrict (pyStrip s)

/-- Model of pandas to_numeric with coercion on a string consisting
of digits and periods: at most one period, at least one digit; the result is
the exact rational value of the decimal literal. `none` models `NaN`. -/
def parseCleanFloat (s : String) : Option ℚ :=
  match splitOnChar '.' s.toList with
  | [ip] =>
    if ip ≠ [] ∧ ip.all Char.isDigit then some (mkRat (digitsVal ip) 1) else none
  | [ip, fp] =>
    if (ip ≠ [] ∨ fp ≠ []) ∧ (ip ++ fp).all Char.isDigit then
      some (mkRat (digitsVal (ip ++ fp)) (10 ^ fp.length))
    else none
  | _ => none

/-- The string cleaning applied to a string-typed value cell:
`.str.strip()` followed by the regex removal of every character that is not a digit or a period,
keeping only ASCII digits and literal periods. -/
def cleanValueChars (s : String) : String :=
  String.mk ((pyStrip s).toList.filter (fun c => c.isDigit || c == '.'))

/-- Full treatment of one string-typed value cell: clean the characters,
then coerce with pandas to_numeric with coercion. -/
def cleanValueStr (s : String) : Option ℚ :=
  parseCleanFloat (cleanValueChars s)

/-! ### Table shapes -/

/-- A row of the long table right after `melt_years` on the TSV path:
every field still holds the raw string from the wide table. -/
structure RawRow where
  unit : String
  sex : String
  age : String
  region : String
  year : String
  value : String
  deriving DecidableEq, Repr

/-- A long-table row after the year column has been converted to integers
but before the value column has been cleaned. -/
structure YearRow where
  unit : String
  sex : String
  age : String
  region : String
  year : Int
  value : String
  deriving DecidableEq, Repr

/-- A long-table row as produced by the JSON loader: `year` is already
integer-typed and `value` is already numeric, with `none` modelling a
null/NaN entry. -/
structure NumRow where
  unit : String
  sex : String
  age : String
  region : String
  year : Int
  value : Option ℚ
  deriving DecidableEq, Repr

/-- A fully cleaned row: integer year and a parsed, finite value. -/
structure CleanRow where
  unit : String
  sex : String
  age : String
  region : String
  year : Int
  value : ℚ
  deriving DecidableEq, Repr

/-- The slice of `life_expectancy.regions.Region` the pipeline consumes:
an enumeration member is only ever used through its string code
`country.value` (for example `Region.PT.value = "PT"`). The module
`regions.py` itself is outside the embedded sources, so a region is
modelled as its code. -/
structure Region where
  value : String
  deriving DecidableEq, Repr

/-- A wide (pre-melt) pandas DataFrame: named columns and rows of string
cells, in column order. -/
structure WideDF where
  cols : List String
  rows : List (List String)
  deriving DecidableEq, Repr

/-! ### The pipeline of cleaning.py -/

/-- The four parts of the composed first-column cell of one wide row,
split on commas: `df.iloc[:, 0].str.split(",", expand=True)`. -/
def composedParts (r : List String) : List String :=
  splitComma (r.headD "")

/-- Python `split_metadata_columns`: assign four new columns
`unit, sex, age, region` from splitting the first column on commas. -/
def split_metadata_columns (df : WideDF) : WideDF :=
  { cols := df.cols ++ ["unit", "sex", "age", "region"],
    rows := df.rows.map (fun r => r ++ composedParts r) }

/-- The year-column selection `df.columns[1:-4]` used by `melt_years`. -/
def year_columns (df : WideDF) : List String :=
  (df.cols.take (df.cols.length - 4)).drop 1

/-- Position of the first column named `name`, as pandas label lookup. -/
def colIdx (df : WideDF) (name : String) : Nat :=
  df.cols.findIdx (fun c => c == name)

/-- The cell of row `r` in the column named `name`. -/
def cellAt (df : WideDF) (r : List String) (name : String) : String :=
  r.getD (colIdx df name) ""

/-- Python `melt_years`: un-pivot the year columns. `pd.melt` emits one
block per `value_vars` entry, in the given column order, and inside each
block one output row per source row, in source order. -/
def melt_years (df : WideDF) : List RawRow :=
  (year_columns df).flatMap (fun y =>
    df.rows.map (fun r =>
      { unit := cellAt df r "unit"
        sex := cellAt df r "sex"
        age := cellAt df r "age"
        region := cellAt df r "region"
        year := y
        value := cellAt df r y }))

/-- The year-column conversion of `clean_types` on the string-typed (TSV)
path: strip each cell, then convert with astype-int. Converting a whole pandas
column raises as soon as any cell fails to parse, which the `Option`
models: `none` is the propagated exception. -/
def convertYears : List RawRow → Option (List YearRow)
  | [] => some []
  | r :: rs =>
    match parseYear r.year with
    | none => none
    | some y =>
      (convertYears rs).map (fun l =>
        { unit := r.unit, sex := r.sex, age := r.age, region := r.region,
          year := y, value := r.value } :: l)

/-- The value-column treatment of `clean_types` on the string-typed path:
clean each cell, coerce to numeric with NaN on failure, then
dropna on the value column. -/
def cleanValues (rows : List YearRow) : List CleanRow :=
  rows.filterMap (fun r =>
    (cleanValueStr r.value).map (fun v =>
      { unit := r.unit, sex := r.sex, age := r.age, region := r.region,
        year := r.year, value := v }))

/-- Python `clean_types` on a table whose `year` and `value` columns are
string-typed (the TSV path through both dtype branches): convert the year
column (an unparseable year raises), clean the value column, drop rows
whose value did not parse. -/
def clean_types (rows : List RawRow) : Option (List CleanRow) :=
  (convertYears rows).map cleanValues

/-- Python `clean_types` on a table whose `year` and `value` columns are
already numeric (the JSON path through both dtype branches):
`astype(int)` and `to_numeric` are the identity there, and
dropna on the value column removes the null entries. -/
def clean_types_num (rows : List NumRow) : List CleanRow :=
  rows.filterMap (fun r =>
    r.value.map (fun v =>
      { unit := r.unit, sex := r.sex, age := r.age, region := r.region,
        year := r.year, value := v }))

/-- Python `filter_country`: keep the rows whose `region` cell equals the
requested region code `country.value`. -/
def filter_country (rows : List CleanRow) (country : Region) : List CleanRow :=
  rows.filter (fun r => r.region == country.value)

/-- Python `clean_data` on a wide table (the branch where the long-format
column check fails): split, melt, clean types, filter. The final
`reset_index(drop=True)` does not change the row sequence. -/
def clean_data_tsv (df : WideDF) (country : Region) : Option (List CleanRow) :=
  (clean_types (melt_years (split_metadata_columns df))).map
    (fun rows => filter_country rows country)

/-- Python `clean_data` on a table already in long format (the branch where
all six canonical columns are present, i.e. the JSON path): clean types and
filter only. -/
def clean_data_json (rows : List NumRow) (country : Region) : List CleanRow :=
  filter_country (clean_types_num rows) country

/-! ### The loader dispatch of data_loaders.py -/

/-- The two registered loader strategies. -/
inductive LoaderKind where
  | tsv
  | json
  deriving DecidableEq, Repr

/-- The final path component, as pathlib computes it for a POSIX path:
empty segments and single-dot segments are dropped, and the last remaining
segment is the name. -/
def pathName (p : String) : String :=
  (((splitOnChar '/' p.toList).map String.mk).filter
    (fun s => s != "" && s != ".")).getLastD ""

/-- Model of `pathlib.Path(p).suffix`: the part of the name from its last
period onward, provided that period is neither the first nor the last
character of the name; otherwise the suffix is empty. -/
def pathSuffix (p : String) : String :=
  let cs := (pathName p).toList
  match cs.reverse.findIdx? (fun c => c == '.') with
  | none => ""
  | some k =>
    let i := cs.length - 1 - k
    if 0 < i ∧ i < cs.length - 1 then String.mk (cs.drop i) else ""

/-- The literal list rendering of the registry keys in the error message:
`list(loaders.keys())` printed by the f-string. -/
def supportedFormatsMsg : String := "[\x27.tsv\x27, \x27.json\x27]"

/-- The unsupported-format error message raised by `get_data_loader`. -/
def unsupportedMsg (ext : String) : String :=
  "Unsupported file format: " ++ ext ++ ". Supported formats: " ++ supportedFormatsMsg

/-- Python `get_data_loader`: look up the lower-cased path suffix in the
registry, raising ValueError with the supported-formats message when no
loader is registered for it. -/
def get_data_loader (p : String) : Except String LoaderKind :=
  let ext := lowerString (pathSuffix p)
  if ext == ".tsv" then .ok .tsv
  else if ext == ".json" then .ok .json
  else .error (unsupportedMsg ext)

/-! ### The JSON loader of data_loaders.py -/

/-- A generic pandas DataFrame with cells of type `α`, used to model the
table returned by `pd.read_json` before column standardization. -/
structure GenDF (α : Type) where
  cols : List String
  rows : List (List α)
  deriving DecidableEq, Repr

/-- The column renaming of `JSONDataLoader.load`:
country becomes region and life_expectancy becomes value; every other
label is kept. -/
def renameCol (c : String) : String :=
  if c == "country" then "region"
  else if c == "life_expectancy" then "value" else c

/-- Python `df.rename(columns=...)`: relabel the columns, leaving cells
untouched. -/
def renameCols {α : Type} (df : GenDF α) : GenDF α :=
  { df with cols := df.cols.map renameCol }

/-- The column list selected by `JSONDataLoader.load`. -/
def expected_columns : List String :=
  ["unit", "sex", "age", "region", "year", "value"]

/-- Python column projection `df[names]`: when every requested label is
present, restrict to those columns; otherwise pandas raises a
KeyError. -/
def selectColumns {α : Type} [Inhabited α] (names : List String) (df : GenDF α) :
    Except String (GenDF α) :=
  if names.all (fun n => df.cols.contains n) then
    .ok { cols := names,
          rows := df.rows.map (fun r =>
            names.map (fun n => r.getD (df.cols.findIdx (fun c => c == n)) default)) }
  else
    .error "KeyError: requested columns not in index"

namespace JSONDataLoader

/-- Python `JSONDataLoader.load` after the file has been read: rename
the source fields and project to the six canonical columns. -/
def load {α : Type} [Inhabited α] (df : GenDF α) : Except String (GenDF α) :=
  selectColumns expected_columns (renameCols df)

end JSONDataLoader

/-! ### Shared shape lemmas -/

/-- After the split step, the year-column slice is exactly every original
column except the first one: the four appended metadata columns fall out of
the slice again. -/
theorem year_columns_split (df : WideDF) :
    year_columns (split_metadata_columns df) = df.cols.drop 1 := by
  unfold year_columns split_metadata_columns
  simp only [List.length_append, List.length_cons, List.length_nil,
    Nat.add_sub_cancel]
  rw [List.take_left]

/-- Flat-mapping a per-element map over a fixed row list multiplies the
lengths. -/
theorem length_flatMap_map {α β γ : Type} (ys : List α) (rows : List β) (g : α → β → γ) :
    (ys.flatMap (fun y => rows.map (g y))).length = ys.length * rows.length := by
  induction ys with
  | nil => simp
  | cons y ys ih => simp [ih, Nat.succ_mul, Nat.add_comm]

/-- The melt step always emits one output row per year column and source
row pair. -/
theorem length_melt_years (df : WideDF) :
    (melt_years df).length = (year_columns df).length * df.rows.length := by
  unfold melt_years
  exact length_flatMap_map _ _ _

/-- The split step keeps the number of rows unchanged. -/
theorem length_split_rows (df : WideDF) :
    (split_metadata_columns df).rows.length = df.rows.length := by
  simp [split_metadata_columns]

/-! ### Claim theorems -/

/-- A sample melted row with given year and value strings, used for
concrete runs. -/
def mkRawPT (y v : String) : RawRow :=
  ⟨"YR", "M", "Y10", "PT", y, v⟩

/-- A sample cleaned row with given year and value, used for concrete
runs. -/
def mkCleanPT (y : Int) (q : ℚ) : CleanRow :=
  ⟨"YR", "M", "Y10", "PT", y, q⟩

/-- Claim C1: on a string-typed value column, `clean_types` strips
whitespace and removes every character that is not an ASCII digit or a
literal period before parsing: the string 21.7 followed by a footnote
letter parses to 21.7, 18.5 with a trailing asterisk parses to 18.5, 20
comma 5 parses to 205 (the comma-as-decimal-separator quirk is preserved),
and the bare missing-data colon token leaves an unparseable value whose
row is dropped (with no error). -/
theorem clean_types_value_cleaning :
    clean_types [mkRawPT "2020" "21.7 e"] = some [mkCleanPT 2020 (mkRat 217 10)] ∧
    clean_types [mkRawPT "2020" "18.5*"] = some [mkCleanPT 2020 (mkRat 185 10)] ∧
    clean_types [mkRawPT "2020" "20,5"] = some [mkCleanPT 2020 (mkRat 205 1)] ∧
    clean_types [mkRawPT "2020" "  21.7 e  "] = some [mkCleanPT 2020 (mkRat 217 10)] ∧
    clean_types [mkRawPT "2020" ":"] = some [] := by
  decide

/-- Claim C3: for a wide table with first (composed) column, year columns
`ys` and `rows.length` data rows, the split-then-melt normalization emits
exactly one long row per data row and year column, and the melted year
columns are exactly all columns except the composed one and the four
metadata columns appended by the split. -/
theorem melt_split_shape (c0 : String) (ys : List String) (rows : List (List String)) :
    year_columns (split_metadata_columns ⟨c0 :: ys, rows⟩) = ys ∧
    (melt_years (split_metadata_columns ⟨c0 :: ys, rows⟩)).length = rows.length * ys.length := by
  constructor
  · simpa using year_columns_split ⟨c0 :: ys, rows⟩
  · rw [length_melt_years, year_columns_split, length_split_rows]
    simp [Nat.mul_comm]

/-- Claim C8: `filter_country` returns exactly the subsequence of rows
whose region equals the requested code (compared exactly, case-sensitive):
the result is a sublist of the input (order preserved), every kept row
matches the code, every matching row is kept, and zero matches give the
empty table with no error. -/
theorem filter_country_exact (rows : List CleanRow) (c : Region) :
    (filter_country rows c).Sublist rows ∧
    (∀ r ∈ filter_country rows c, r.region = c.value) ∧
    (∀ r ∈ rows, r.region = c.value → r ∈ filter_country rows c) ∧
    ((∀ r ∈ rows, r.region ≠ c.value) → filter_country rows c = []) := by
  refine ⟨List.filter_sublist _, ?_, ?_, ?_⟩
  · intro r hr
    have h := (List.mem_filter.mp hr).2
    simpa using h
  · intro r hr hreg
    exact List.mem_filter.mpr ⟨hr, by simpa using hreg⟩
  · intro h
    rw [show filter_country rows c = List.filter (fun r => r.region == c.value) rows from rfl,
      List.filter_eq_nil_iff]
    intro a ha
    simpa using h a ha

/-- Witness for C8 at a concrete table: the PT row is kept when filtering
for PT, and a table with only an ES row filters down to the empty table. -/
theorem filter_country_exact_witness :
    mkCleanPT 2020 (mkRat 217 10) ∈
      filter_country [mkCleanPT 2020 (mkRat 217 10), ⟨"YR", "M", "Y10", "ES", 2020, mkRat 82 1⟩]
        ⟨"PT"⟩ ∧
    filter_country [⟨"YR", "M", "Y10", "ES", 2020, mkRat 82 1⟩] ⟨"PT"⟩ = [] := by
  constructor
  · exact (filter_country_exact
      [mkCleanPT 2020 (mkRat 217 10), ⟨"YR", "M", "Y10", "ES", 2020, mkRat 82 1⟩]
      ⟨"PT"⟩).2.2.1 (mkCleanPT 2020 (mkRat 217 10)) (by decide) (by decide)
  · exact (filter_country_exact [⟨"YR", "M", "Y10", "ES", 2020, mkRat 82 1⟩] ⟨"PT"⟩).2.2.2
      (by decide)

/-- An unparseable year anywhere in the column makes the whole year
conversion raise. -/
theorem convertYears_none {rows : List RawRow} {r : RawRow} (hr : r ∈ rows)
    (hy : parseYear r.year = none) : convertYears rows = none := by
  induction rows with
  | nil => cases hr
  | cons a rs ih =>
    rcases List.mem_cons.mp hr with h | h
    · subst h
      simp [convertYears, hy]
    · cases hpa : parseYear a.year with
      | none => simp [convertYears, hpa]
      | some y => simp [convertYears, hpa, ih h]

/-- When every year parses, the year conversion succeeds and the survivor
count is the number of rows whose cleaned value parses. -/
theorem convertYears_some {rows : List RawRow} (h : ∀ r ∈ rows, (parseYear r.year).isSome) :
    ∃ yrows, convertYears rows = some yrows ∧
      (cleanValues yrows).length =
        (rows.filter (fun r => (cleanValueStr r.value).isSome)).length := by
  induction rows with
  | nil => exact ⟨[], rfl, rfl⟩
  | cons a rs ih =>
    obtain ⟨y, hy⟩ := Option.isSome_iff_exists.mp (h a (List.mem_cons_self a rs))
    obtain ⟨yrows, hrec, hlen⟩ := ih (fun r hr => h r (List.mem_cons_of_mem a hr))
    refine ⟨⟨a.unit, a.sex, a.age, a.region, y, a.value⟩ :: yrows, ?_, ?_⟩
    · simp [convertYears, hy, hrec]
    · cases hv : cleanValueStr a.value with
      | none => simp [cleanValues, List.filterMap_cons, hv, List.filter_cons] at hlen ⊢
                simpa [cleanValues, hv] using hlen
      | some v => simp [cleanValues, List.filterMap_cons, hv, List.filter_cons] at hlen ⊢
                  simpa [cleanValues, hv] using hlen

/-- Claim C2 (amended): in `clean_types`, a year cell that fails integer
parsing makes the whole call raise, while a value cell that fails to parse
silently removes exactly that row and raises nothing; and apart from the
explicit region restriction of `filter_country`, this value drop is the
only point of the pipeline where rows are discarded - the split step keeps
the row count and the melt step emits one row per source row and year
column. -/
theorem clean_types_error_policy :
    (∀ (rows : List RawRow) (r : RawRow), r ∈ rows → parseYear r.year = none →
      clean_types rows = none) ∧
    (∀ rows : List RawRow, (∀ r ∈ rows, (parseYear r.year).isSome) →
      ∃ out, clean_types rows = some out ∧
        out.length = (rows.filter (fun r => (cleanValueStr r.value).isSome)).length) ∧
    (∀ df : WideDF, (split_metadata_columns df).rows.length = df.rows.length) ∧
    (∀ df : WideDF, (melt_years df).length = (year_columns df).length * df.rows.length) := by
  refine ⟨?_, ?_, length_split_rows, length_melt_years⟩
  · intro rows r hr hy
    simp [clean_types, convertYears_none hr hy]
  · intro rows h
    obtain ⟨yrows, hrec, hlen⟩ := convertYears_some h
    exact ⟨cleanValues yrows, by simp [clean_types, hrec], hlen⟩

/-- Witness for C2 (amended) at a concrete input: a table whose single row
has an unparseable year makes `clean_types` raise. -/
theorem clean_types_error_policy_witness :
    clean_types [mkRawPT "20x0" "1.0"] = none :=
  clean_types_error_policy.1 [mkRawPT "20x0" "1.0"] (mkRawPT "20x0" "1.0")
    (by decide) (by decide)

/-- Counterexample to C2 as stated: the value drop is not the only point
of the pipeline where rows are discarded. In this concrete run both melted
rows survive `clean_types` (both values parse), yet the pipeline output
for PT has discarded the ES row at the country-filter stage. -/
theorem clean_types_only_drop_counterexample :
    clean_types (melt_years (split_metadata_columns
        ⟨["geo", "2020"], [["YR,M,Y10,PT", "10.5"], ["YR,M,Y10,ES", "82"]]⟩)) =
      some [⟨"YR", "M", "Y10", "PT", 2020, mkRat 105 10⟩,
            ⟨"YR", "M", "Y10", "ES", 2020, mkRat 82 1⟩] ∧
    clean_data_tsv ⟨["geo", "2020"], [["YR,M,Y10,PT", "10.5"], ["YR,M,Y10,ES", "82"]]⟩ ⟨"PT"⟩ =
      some [⟨"YR", "M", "Y10", "PT", 2020, mkRat 105 10⟩] := by
  decide

/-- Claim C5 names a code bug, and this theorem evaluates the code at the
failing input: `clean_types` keeps a row whose cleaned value is the exact
integer 10 ^ 309, and 10 ^ 309 exceeds 2 ^ 1024, so it lies beyond every
finite IEEE-754 double. The real pipeline coerces such a cell to float64
infinity and keeps the row, because the dropna step removes only NaN and
nothing in `clean_types` re-validates finiteness - so an infinite value
survives, against the claimed postcondition that surviving values are
never infinite. -/
theorem clean_types_keeps_overflow :
    clean_types [mkRawPT "2020" (String.mk ('1' :: List.replicate 309 '0'))] =
      some [mkCleanPT 2020 (mkRat ((10 : Int) ^ 309) 1)] ∧
    (2 : Nat) ^ 1024 < 10 ^ 309 := by
  constructor
  · decide
  · decide

/-- Spec-side description of one melted row, read positionally off the
wide layout contract: the metadata fields come from splitting the composed
first cell on commas, the year is the label of year column number `i`
(counting from zero), and the value is the cell below that label. -/
def specMeltRow (r : List String) (i : Nat) (y : String) : RawRow :=
  { unit := (composedParts r).getD 0 ""
    sex := (composedParts r).getD 1 ""
    age := (composedParts r).getD 2 ""
    region := (composedParts r).getD 3 ""
    year := y
    value := r.getD (i + 1) "" }

/-- Spec-side ordering stated by claim C4: rows grouped by original source
row, and within each group the year columns in their original
left-to-right order. -/
def meltRowMajorSpec (df : WideDF) : List RawRow :=
  df.rows.flatMap (fun r => (df.cols.drop 1).enum.map (fun iy => specMeltRow r iy.1 iy.2))

/-- Spec-side ordering with the grouping turned around: blocks follow the
year columns in their original left-to-right order, and inside each block
the source rows keep their original order. -/
def meltYearMajorSpec (df : WideDF) : List RawRow :=
  (df.cols.drop 1).enum.flatMap (fun iy => df.rows.map (fun r => specMeltRow r iy.1 iy.2))

/-- In a duplicate-free list, searching for the label stored at position
`i` finds position `i`. -/
theorem findIdx_beq_getElem {l : List String} (hnd : l.Nodup) (i : Nat) (hi : i < l.length) :
    l.findIdx (fun c => c == l.get ⟨i, hi⟩) = i := by
  induction l generalizing i with
  | nil => cases hi
  | cons a tl ih =>
    cases i with
    | zero => simp [List.findIdx_cons]
    | succ n =>
      have hn : n < tl.length := by simpa using hi
      have ha : a ∉ tl := (List.nodup_cons.mp hnd).1
      have htl : (a :: tl).get ⟨n + 1, hi⟩ = tl.get ⟨n, hn⟩ := List.get_cons_succ
      have hne : (a == tl.get ⟨n, hn⟩) = false :=
        beq_eq_false_iff_ne.mpr (fun h => ha (h ▸ tl.get_mem n hn))
      simp only [List.findIdx_cons, htl, hne, cond_false,
        ih (List.nodup_cons.mp hnd).2 n hn]

/-- Column lookup by the label stored at a position of a duplicate-free
column list lands back on that position. -/
theorem colIdx_get {df : WideDF} (hnd : df.cols.Nodup) (j : Nat) (hj : j < df.cols.length) :
    colIdx df (df.cols.get ⟨j, hj⟩) = j :=
  findIdx_beq_getElem hnd j hj

/-- Flat-mapping a list is flat-mapping its enumeration on the second
components. -/
theorem flatMap_enum {α β : Type} (l : List α) (f : α → List β) :
    l.flatMap f = l.enum.flatMap (fun p => f p.2) := by
  conv_lhs => rw [← List.enum_map_snd l]
  rw [List.flatMap_map]

/-- Counterexample to claim C4 as stated: on a two-row, two-year wide
table, the melt output is a permutation of the row-grouped ordering the
claim describes but differs from it - pandas melt emits the output
grouped by year column instead. -/
theorem melt_years_order_counterexample :
    melt_years (split_metadata_columns
        ⟨["geo", "2020", "2021"], [["u,s,a,PT", "10", "11"], ["u,s,a,ES", "20", "21"]]⟩) ≠
      meltRowMajorSpec
        ⟨["geo", "2020", "2021"], [["u,s,a,PT", "10", "11"], ["u,s,a,ES", "20", "21"]]⟩ ∧
    (melt_years (split_metadata_columns
        ⟨["geo", "2020", "2021"], [["u,s,a,PT", "10", "11"], ["u,s,a,ES", "20", "21"]]⟩)).Perm
      (meltRowMajorSpec
        ⟨["geo", "2020", "2021"], [["u,s,a,PT", "10", "11"], ["u,s,a,ES", "20", "21"]]⟩) := by
  constructor
  · decide
  · decide

/-- Claim C4 (amended): for a well-formed wide table - pairwise distinct
column labels also distinct from the four appended metadata labels, and
every row as wide as the header - the long table produced by `melt_years`
is ordered with rows grouped by year column in the original left-to-right
order, and within each group the rows follow the original source row
order. -/
theorem melt_years_order (c0 : String) (ys : List String) (rows : List (List String))
    (hnd : ((c0 :: ys) ++ ["unit", "sex", "age", "region"]).Nodup)
    (hlen : ∀ r ∈ rows, r.length = ys.length + 1) :
    melt_years (split_metadata_columns ⟨c0 :: ys, rows⟩) =
      meltYearMajorSpec ⟨c0 :: ys, rows⟩ := by
  have hyc : year_columns (split_metadata_columns ⟨c0 :: ys, rows⟩) = ys := by
    simpa using year_columns_split ⟨c0 :: ys, rows⟩
  unfold melt_years meltYearMajorSpec
  rw [hyc]
  rw [flatMap_enum]
  simp only [List.drop_succ_cons, List.drop_zero]
  rw [List.flatMap_def, List.flatMap_def]
  congr 1
  apply List.map_congr_left
  rintro ⟨i, y⟩ hmem
  have hget : ys[i]? = some y := List.mem_enum_iff_getElem?.mp hmem
  have hi : i < ys.length := by
    by_contra hcon
    rw [List.getElem?_eq_none (by omega)] at hget
    cases hget
  have hyi : ys[i] = y := by
    rw [List.getElem?_eq_getElem hi] at hget
    exact Option.some.inj hget
  rw [show (split_metadata_columns ⟨c0 :: ys, rows⟩).rows =
      rows.map (fun r => r ++ composedParts r) from rfl, List.map_map]
  apply List.map_congr_left
  intro r hr
  simp only [Function.comp_apply]
  have hrlen : r.length = ys.length + 1 := hlen r hr
  have hndc : (split_metadata_columns ⟨c0 :: ys, rows⟩).cols.Nodup := hnd
  have hmetaidx : ∀ (k : Nat), k < 4 → ∀ (name : String),
      (["unit", "sex", "age", "region"] : List String)[k]? = some name →
      cellAt (split_metadata_columns ⟨c0 :: ys, rows⟩) (r ++ composedParts r) name =
        (composedParts r).getD k "" := by
    intro k hk name hname
    have hjlt : ys.length + 1 + k < (split_metadata_columns ⟨c0 :: ys, rows⟩).cols.length := by
      simp [split_metadata_columns]
      omega
    have hopt : (split_metadata_columns ⟨c0 :: ys, rows⟩).cols[ys.length + 1 + k]? =
        some name := by
      show ((c0 :: ys) ++ ["unit", "sex", "age", "region"])[ys.length + 1 + k]? = some name
      rw [List.getElem?_append_right (by simp only [List.length_cons]; omega)]
      have hsub : ys.length + 1 + k - (c0 :: ys).length = k := by
        simp only [List.length_cons]
        omega
      rw [hsub, hname]
    have hgetj : (split_metadata_columns ⟨c0 :: ys, rows⟩).cols.get ⟨ys.length + 1 + k, hjlt⟩ =
        name := by
      have h2 := List.getElem?_eq_getElem hjlt
      rw [h2] at hopt
      simpa using hopt
    have hcol : colIdx (split_metadata_columns ⟨c0 :: ys, rows⟩) name = ys.length + 1 + k := by
      rw [← hgetj]
      exact colIdx_get hndc _ hjlt
    rw [cellAt, hcol, List.getD_eq_getElem?_getD,
      List.getElem?_append_right (by omega : r.length ≤ ys.length + 1 + k)]
    have hsub : ys.length + 1 + k - r.length = k := by omega
    rw [hsub, ← List.getD_eq_getElem?_getD]
  have hyearidx : cellAt (split_metadata_columns ⟨c0 :: ys, rows⟩) (r ++ composedParts r) y =
      r.getD (i + 1) "" := by
    have hjlt : i + 1 < (split_metadata_columns ⟨c0 :: ys, rows⟩).cols.length := by
      simp [split_metadata_columns]
      omega
    have hopt : (split_metadata_columns ⟨c0 :: ys, rows⟩).cols[i + 1]? = some y := by
      show ((c0 :: ys) ++ ["unit", "sex", "age", "region"])[i + 1]? = some y
      rw [List.getElem?_append_left (by simp only [List.length_cons]; omega),
        List.getElem?_cons_succ]
      rw [List.getElem?_eq_getElem hi, hyi]
    have hgetj : (split_metadata_columns ⟨c0 :: ys, rows⟩).cols.get ⟨i + 1, hjlt⟩ = y := by
      have h2 := List.getElem?_eq_getElem hjlt
      rw [h2] at hopt
      simpa using hopt
    have hcol : colIdx (split_metadata_columns ⟨c0 :: ys, rows⟩) y = i + 1 := by
      rw [← hgetj]
      exact colIdx_get hndc _ hjlt
    rw [cellAt, hcol, List.getD_eq_getElem?_getD,
      List.getElem?_append_left (by omega : i + 1 < r.length),
      ← List.getD_eq_getElem?_getD]
  rw [hmetaidx 0 (by omega) "unit" rfl, hmetaidx 1 (by omega) "sex" rfl,
    hmetaidx 2 (by omega) "age" rfl, hmetaidx 3 (by omega) "region" rfl, hyearidx]
  rfl

/-- Witness for C4 (amended) at a concrete table: the melt output of a
two-row, two-year wide table equals the year-grouped ordering. -/
theorem melt_years_order_witness :
    melt_years (split_metadata_columns
        ⟨["geo", "2020", "2021"], [["u,s,a,PT", "10", "11"], ["u,s,a,ES", "20", "21"]]⟩) =
      meltYearMajorSpec
        ⟨["geo", "2020", "2021"], [["u,s,a,PT", "10", "11"], ["u,s,a,ES", "20", "21"]]⟩ :=
  melt_years_order "geo" ["2020", "2021"] [["u,s,a,PT", "10", "11"], ["u,s,a,ES", "20", "21"]]
    (by decide) (by decide)

/-- Claim C9: filtering twice with the same region code is the same as
filtering once. -/
theorem filter_country_idempotent (rows : List CleanRow) (c : Region) :
    filter_country (filter_country rows c) c = filter_country rows c := by
  simp [filter_country, List.filter_filter]

/-- The logical content of one melted string row as a numeric long row:
the parsed year, and the cleaned and coerced value with `none` for an
unparseable cell. -/
def rawToNum (r : RawRow) : Option NumRow :=
  (parseYear r.year).map (fun y =>
    ⟨r.unit, r.sex, r.age, r.region, y, cleanValueStr r.value⟩)

/-- The logical rows of a whole melted table; fails when some year cell
fails to parse. -/
def rawToNumList : List RawRow → Option (List NumRow)
  | [] => some []
  | r :: rs =>
    match rawToNum r with
    | none => none
    | some n => (rawToNumList rs).map (n :: ·)

/-- Cleaning a string-typed long table gives the same result as cleaning
its numeric logical content along the already-numeric path. -/
theorem clean_types_eq_num {rows : List RawRow} {nlist : List NumRow}
    (h : rawToNumList rows = some nlist) :
    clean_types rows = some (clean_types_num nlist) := by
  induction rows generalizing nlist with
  | nil =>
    obtain rfl : ([] : List NumRow) = nlist := Option.some.inj h
    rfl
  | cons a rs ih =>
    cases hra : rawToNum a with
    | none => rw [rawToNumList, hra] at h; cases h
    | some n =>
      rw [rawToNumList, hra] at h
      obtain ⟨ns, hns, rfl⟩ := Option.map_eq_some'.mp h
      obtain ⟨y, hy, hn⟩ := Option.map_eq_some'.mp hra
      obtain ⟨yrs, hyrs, hcv⟩ := Option.map_eq_some'.mp (ih hns)
      subst hn
      rw [clean_types]
      simp only [convertYears, hy, hyrs, Option.map_some', Option.some.injEq]
      simp only [cleanValues, clean_types_num, List.filterMap_cons]
      cases hv : cleanValueStr a.value <;>
        simp only [hv, Option.map_some', Option.map_none'] <;>
        first
        | exact hcv
        | exact congrArg _ hcv

/-- Claim C6: a wide TSV table and a long JSON table encoding the same
logical rows clean to the same result for the same region code, row order
aside. Encoding the same logical rows is stated as: the numeric logical
content of the melted wide table exists (all years parse) and the JSON
rows are a permutation of it. -/
theorem format_equivalence (df : WideDF) (json : List NumRow) (c : Region)
    (nlist : List NumRow)
    (hlog : rawToNumList (melt_years (split_metadata_columns df)) = some nlist)
    (hperm : json.Perm nlist) :
    ∃ out, clean_data_tsv df c = some out ∧ (clean_data_json json c).Perm out := by
  refine ⟨filter_country (clean_types_num nlist) c, ?_, ?_⟩
  · rw [clean_data_tsv, clean_types_eq_num hlog]
    rfl
  · exact List.Perm.filter _ (List.Perm.filterMap _ hperm)

/-- Witness for C6 at a concrete pair of tables: a one-row wide table and
the JSON encoding of its single logical row clean to permutation-equal
outputs. -/
theorem format_equivalence_witness :
    ∃ out, clean_data_tsv ⟨["geo", "2020"], [["YR,M,Y10,PT", "21.7 e"]]⟩ ⟨"PT"⟩ = some out ∧
      (clean_data_json [⟨"YR", "M", "Y10", "PT", 2020, some (mkRat 217 10)⟩] ⟨"PT"⟩).Perm out :=
  format_equivalence ⟨["geo", "2020"], [["YR,M,Y10,PT", "21.7 e"]]⟩
    [⟨"YR", "M", "Y10", "PT", 2020, some (mkRat 217 10)⟩] ⟨"PT"⟩
    [⟨"YR", "M", "Y10", "PT", 2020, some (mkRat 217 10)⟩] (by decide) (by decide)

/-- Claim C7: loader selection depends only on the lower-cased path
suffix: a tsv suffix of any letter case selects the TSV loader, a json
suffix the JSON loader, and any other suffix raises the unsupported-format
error whose message lists the two supported suffixes; concretely, a csv
path fails with that message while upper-case tsv and json paths load. -/
theorem get_data_loader_spec (p : String) :
    (lowerString (pathSuffix p) = ".tsv" → get_data_loader p = .ok .tsv) ∧
    (lowerString (pathSuffix p) = ".json" → get_data_loader p = .ok .json) ∧
    (lowerString (pathSuffix p) ≠ ".tsv" → lowerString (pathSuffix p) ≠ ".json" →
      get_data_loader p = .error (unsupportedMsg (lowerString (pathSuffix p)))) ∧
    get_data_loader "data.csv" =
      .error "Unsupported file format: .csv. Supported formats: [\x27.tsv\x27, \x27.json\x27]" ∧
    get_data_loader "data.TsV" = .ok .tsv ∧
    get_data_loader "dir.x/data.JSON" = .ok .json := by
  refine ⟨?_, ?_, ?_, by decide, by decide, by decide⟩
  · intro h
    simp [get_data_loader, h]
  · intro h
    simp [get_data_loader, h]
  · intro h1 h2
    simp [get_data_loader, h1, h2]

/-- Witness for C7 at a concrete path: an xml path raises the
unsupported-format error for its suffix. -/
theorem get_data_loader_spec_witness :
    get_data_loader "file.xml" = .error (unsupportedMsg ".xml") := by
  have h := (get_data_loader_spec "file.xml").2.2.1 (by decide) (by decide)
  have he : lowerString (pathSuffix "file.xml") = ".xml" := by decide
  rw [he] at h
  exact h

/-- Searching a mapped list is searching the original list with the
composed predicate. -/
theorem findIdx_comp_map {α β : Type} (p : β → Bool) (f : α → β) (l : List α) :
    (l.map f).findIdx p = l.findIdx (fun a => p (f a)) := by
  induction l with
  | nil => rfl
  | cons a tl ih => simp [List.findIdx_cons, ih]

/-- Two predicates agreeing on the elements search to the same position. -/
theorem findIdx_congr {α : Type} {p q : α → Bool} {l : List α}
    (h : ∀ a ∈ l, p a = q a) : l.findIdx p = l.findIdx q := by
  induction l with
  | nil => rfl
  | cons a tl ih =>
    rw [List.findIdx_cons, List.findIdx_cons, h a (List.mem_cons_self a tl),
      ih (fun b hb => h b (List.mem_cons_of_mem a hb))]

/-- The source column feeding each canonical column of the JSON loader:
region is fed by country, value by life_expectancy, the rest by their own
name. -/
def srcName (n : String) : String :=
  if n == "region" then "country"
  else if n == "value" then "life_expectancy" else n

/-- The cell of row `r` under the column of `df` labelled `n`. -/
def srcCell {α : Type} [Inhabited α] (df : GenDF α) (r : List α) (n : String) : α :=
  r.getD (df.cols.findIdx (fun c => c == n)) default

/-- Looking a canonical column up in the renamed header is looking its
source column up in the original header, provided the raw JSON header
does not already use the two renamed target labels. -/
theorem renameCols_findIdx {α : Type} (df : GenDF α) (hreg : "region" ∉ df.cols)
    (hval : "value" ∉ df.cols) (n : String) (hn : n ∈ expected_columns) :
    (renameCols df).cols.findIdx (fun c => c == n) =
      df.cols.findIdx (fun c => c == srcName n) := by
  rw [renameCols]
  rw [findIdx_comp_map]
  apply findIdx_congr
  intro c hc
  have hcr : c ≠ "region" := fun e => hreg (e ▸ hc)
  have hcv : c ≠ "value" := fun e => hval (e ▸ hc)
  have hexp : n = "unit" ∨ n = "sex" ∨ n = "age" ∨ n = "region" ∨ n = "year" ∨ n = "value" := by
    simpa [expected_columns] using hn
  by_cases h1 : c = "country"
  · subst h1
    rcases hexp with rfl | rfl | rfl | rfl | rfl | rfl <;> simp [renameCol, srcName]
  · by_cases h2 : c = "life_expectancy"
    · subst h2
      rcases hexp with rfl | rfl | rfl | rfl | rfl | rfl <;> simp [renameCol, srcName]
    · have hcn : renameCol c = c := by
        simp [renameCol, h1, h2]
      rw [hcn]
      rcases hexp with rfl | rfl | rfl | rfl | rfl | rfl <;>
        simp [srcName, beq_iff_eq, hcr, hcv, h1, h2]

/-- A canonical column is available after the renaming exactly when its
source column is present in the raw JSON header. -/
theorem renameCols_mem {α : Type} (df : GenDF α) (hreg : "region" ∉ df.cols)
    (hval : "value" ∉ df.cols) (n : String) (hn : n ∈ expected_columns) :
    n ∈ (renameCols df).cols ↔ srcName n ∈ df.cols := by
  have hexp : n = "unit" ∨ n = "sex" ∨ n = "age" ∨ n = "region" ∨ n = "year" ∨ n = "value" := by
    simpa [expected_columns] using hn
  rw [renameCols]
  simp only [List.mem_map]
  constructor
  · rintro ⟨c, hc, hcn⟩
    have hcr : c ≠ "region" := fun e => hreg (e ▸ hc)
    have hcv : c ≠ "value" := fun e => hval (e ▸ hc)
    by_cases h1 : c = "country"
    · subst h1
      have hnr : n = "region" := by rw [← hcn]; decide
      subst hnr
      have hsn : srcName "region" = "country" := by decide
      rw [hsn]
      exact hc
    · by_cases h2 : c = "life_expectancy"
      · subst h2
        have hnv : n = "value" := by rw [← hcn]; decide
        subst hnv
        have hsn : srcName "value" = "life_expectancy" := by decide
        rw [hsn]
        exact hc
      · have hcn2 : renameCol c = c := by simp [renameCol, h1, h2]
        rw [hcn2] at hcn
        subst hcn
        have hsc : srcName c = c := by
          simp [srcName, beq_iff_eq, hcr, hcv]
        rw [hsc]
        exact hc
  · intro h
    refine ⟨srcName n, h, ?_⟩
    rcases hexp with rfl | rfl | rfl | rfl | rfl | rfl <;> decide

/-- Claim C10: `JSONDataLoader.load` renames country to region and
life_expectancy to value, then projects to exactly the six canonical
columns, dropping every other field; each projected cell comes from the
matching source column. When one of the six target columns is unavailable
after the renames, the load fails with an error rather than returning a
partial table. Stated for raw JSON headers that do not already use the
renamed target labels. -/
theorem jsonLoad_spec {α : Type} [Inhabited α] (df : GenDF α)
    (hreg : "region" ∉ df.cols) (hval : "value" ∉ df.cols) :
    ((∀ n ∈ expected_columns, srcName n ∈ df.cols) →
      JSONDataLoader.load df = .ok
        ⟨expected_columns,
          df.rows.map (fun r => expected_columns.map (fun n => srcCell df r (srcName n)))⟩) ∧
    ((¬ ∀ n ∈ expected_columns, srcName n ∈ df.cols) →
      ∃ m, JSONDataLoader.load df = .error m) := by
  constructor
  · intro hall
    have hAll : expected_columns.all (fun n => (renameCols df).cols.contains n) = true := by
      rw [List.all_eq_true]
      intro n hn
      exact List.elem_iff.mpr ((renameCols_mem df hreg hval n hn).mpr (hall n hn))
    rw [JSONDataLoader.load, selectColumns, if_pos hAll]
    refine congrArg Except.ok ?_
    refine congrArg (GenDF.mk expected_columns) ?_
    apply List.map_congr_left
    intro r hr
    apply List.map_congr_left
    intro n hn
    rw [renameCols_findIdx df hreg hval n hn]
    rfl
  · intro hmiss
    have hAll : expected_columns.all (fun n => (renameCols df).cols.contains n) = false := by
      cases hb : expected_columns.all (fun n => (renameCols df).cols.contains n) with
      | false => rfl
      | true =>
        exfalso
        apply hmiss
        intro n hn
        exact (renameCols_mem df hreg hval n hn).mp
          (List.elem_iff.mp (List.all_eq_true.mp hb n hn))
    rw [JSONDataLoader.load, selectColumns, if_neg (by rw [hAll]; decide)]
    exact ⟨_, rfl⟩

/-- Witness for C10 at a concrete JSON table: the eight-column raw table
loads to exactly the six canonical columns with the country cell under
region and the life_expectancy cell under value, the flag fields
dropped. -/
theorem jsonLoad_spec_witness :
    JSONDataLoader.load (α := String)
      ⟨["unit", "sex", "age", "country", "year", "life_expectancy", "flag", "flag_detail"],
        [["YR", "M", "Y10", "PT", "2020", "10.5", "e", "est"]]⟩ =
      .ok ⟨expected_columns, [["YR", "M", "Y10", "PT", "2020", "10.5"]]⟩ := by
  have h := (jsonLoad_spec (α := String)
    ⟨["unit", "sex", "age", "country", "year", "life_expectancy", "flag", "flag_detail"],
      [["YR", "M", "Y10", "PT", "2020", "10.5", "e", "est"]]⟩
    (by decide) (by decide)).1 (by decide)
  rw [h]
  decide

end LifeExp
